import Mathlib

/-!
Verification of the ADC sampler application (Zephyr, NUCLEO-H723ZG example).

Shallow embedding of the core components:
* the register file `struct adc_regs` and its operations
  `regs_init` / `regs_update` / `regs_read` (src/app/src/regs.c),
* the sampling-loop cycle of `sample_thread_entry` and the startup logic of
  `main` (src/app/src/main.c),
* the two ADC backend implementations `adc_backend_sample_all`
  (src/app/targets/sim/adc_backend.c and src/app/targets/hw/adc_backend.c),
  the simulator-only injection entry point `adc_backend_inject_mv`, and the
  shell command `cmd_adcset` (src/app/targets/sim/cmd_inject_adc.c),
* an interleaving semantics for the mutex-protected concurrent access to the
  register file, with the writer's critical section split into its individual
  memory writes, used to verify the snapshot-consistency guarantee.

Machine integers are modelled as `Nat` / `Int` with explicit wrapping where
the C type wraps (`uint32_t seq` wraps modulo `2 ^ 32`); C integer division
(truncation toward zero) is modelled by `Int.div`.
-/

namespace AdcSampler

/-- `NUM_CH` (regs.h): number of ADC channels; `CONFIG_APP_NUM_CH` with a
default of 4. -/
def NUM_CH : Nat := 4

/-- Wrap modulus of the `uint32_t` sequence counter. -/
def UINT32_MOD : Nat := 2 ^ 32

instance : NeZero NUM_CH := ⟨by decide⟩

/-- The `errno` value `EINVAL` (22); the C code returns `-EINVAL`. -/
def EINVAL : Int := 22

/-- A millivolt array `int32_t mv[NUM_CH]`, one value per channel. -/
abbrev Chans : Type := Fin NUM_CH → Int

/-- `struct adc_regs` (regs.h): latest millivolt values, sequence counter
(`uint32_t`, wraps modulo `2 ^ 32`), and timestamp of the last update
(`int64_t`, from `k_uptime_get()`). -/
structure adc_regs where
  mv : Chans
  seq : Nat
  last_sample_uptime_ms : Int

/-- `regs_init` (regs.c): the register file is zeroed (`memset`), `seq = 0`,
`last_sample_uptime_ms = 0`.  Modelled as the state the function produces. -/
def regs_init : adc_regs :=
  { mv := fun _ => 0, seq := 0, last_sample_uptime_ms := 0 }

/-- `regs_update` (regs.c): under the mutex, copies all `NUM_CH` channel
values, increments `seq` (a `uint32_t`, hence wrapping modulo `2 ^ 32`), and
stores the current uptime `now` (the value `k_uptime_get()` returns at the
call). -/
def regs_update (r : adc_regs) (mv : Chans) (now : Int) : adc_regs :=
  { mv := mv, seq := (r.seq + 1) % UINT32_MOD, last_sample_uptime_ms := now }

/-- `regs_read` (regs.c): under the mutex, `memcpy`s the whole register file
into the caller's buffer, i.e. returns a full copy of the current state. -/
def regs_read (r : adc_regs) : adc_regs := r

/-- A sequence of committed updates: each entry carries the channel values and
the uptime at which the update ran. -/
abbrev UpdList : Type := List (Chans × Int)

/-- The register-file state after running a list of `regs_update` calls from
the state `r` (in order). -/
def regs_run (r : adc_regs) (us : UpdList) : adc_regs :=
  us.foldl (fun s u => regs_update s u.1 u.2) r

/-- One cycle of the sampling loop body in `sample_thread_entry` (main.c
lines 44-53): if the backend returned 0 the samples are committed via
`regs_update`; otherwise the register file is untouched and the failure is
logged (`LOG_ERR`, recorded here as the `Bool` component). -/
def sample_thread_cycle (ret : Int) (samples : Chans) (now : Int)
    (r : adc_regs) : adc_regs × Bool :=
  if ret = 0 then (regs_update r samples now, false) else (r, true)

/-- The register-file state after the sampling loop has run a list of cycles,
each cycle given by the backend return code, the sampled values and the
uptime at commit. -/
def run_cycles (cycles : List (Int × Chans × Int)) (r : adc_regs) : adc_regs :=
  cycles.foldl (fun s c => (sample_thread_cycle c.1 c.2.1 c.2.2 s).1) r

/-- Startup state produced by `main` (main.c lines 56-83): `regs_init` always
runs; the sampling thread is created only when `adc_backend_init` returned 0,
otherwise `main` returns the error code without starting the thread. -/
structure MainState where
  regs : adc_regs
  thread_started : Bool
  ret : Int

/-- `main` (main.c): calls `regs_init`, then `adc_backend_init`; on a nonzero
backend-init result it returns that code and never calls `k_thread_create`. -/
def main_startup (backend_init_ret : Int) : MainState :=
  if backend_init_ret ≠ 0 then
    { regs := regs_init, thread_started := false, ret := backend_init_ret }
  else
    { regs := regs_init, thread_started := true, ret := 0 }

/-- The register-file state after any number of sampling-loop cycles, given
whether the sampling thread was started.  `regs_update` has no caller in the
sources other than the sampling thread, so when the thread was never started
no cycle ever runs. -/
def run_sampling (started : Bool) (cycles : List (Int × Chans × Int))
    (r : adc_regs) : adc_regs :=
  if started then run_cycles cycles r else r

namespace sim

/-- `ADC_REF_MV` (targets/sim/adc_backend.c): reference voltage in mV. -/
def ADC_REF_MV : Int := 3300

/-- `ADC_RESOLUTION` (targets/sim/adc_backend.c): 12-bit ADC resolution. -/
def ADC_RESOLUTION : Nat := 12

/-- `adc_backend_sample_all` (targets/sim/adc_backend.c lines 79-103).  The
per-channel `adc_read` outcome is an environment parameter: `rret i` is the
driver return code for channel `i` and `rbuf i` the raw value left in
`sample_buffer[i]`.  A negative return code zeroes the output slot; otherwise
the raw value is converted with `raw * ADC_REF_MV / ((1 << ADC_RESOLUTION) - 1)`
(C division truncates toward zero: `Int.tdiv`).  The function returns 0
unconditionally. -/
def adc_backend_sample_all (rret : Fin NUM_CH → Int) (rbuf : Fin NUM_CH → Int) :
    Chans × Int :=
  (fun i => if rret i < 0 then 0
            else Int.tdiv (rbuf i * ADC_REF_MV) ((2 : Int) ^ ADC_RESOLUTION - 1),
   0)

/-- Simulator backend state: the emulator's per-channel constant values
(set with `adc_emul_const_value_set`) and the bookkeeping arrays
`injected_mv` and `injection_enabled` of targets/sim/adc_backend.c. -/
structure SimState where
  emul : Chans
  injected_mv : Chans
  injection_enabled : Fin NUM_CH → Bool

/-- `adc_backend_inject_mv` (targets/sim/adc_backend.c lines 114-140):
rejects `ch >= NUM_CH` with `-EINVAL` before touching any state; clamps the
value to `[0, ADC_REF_MV]`, logging a warning (`LOG_WRN`, recorded in the
`Bool` component) exactly when the value was outside that range; stores the
clamped value in the emulator and the bookkeeping arrays and returns 0.  The
external `adc_emul_const_value_set` call is modelled as succeeding: it is a
plain store on the emulator device for a valid channel. -/
def adc_backend_inject_mv (st : SimState) (ch : Nat) (mv : Int) :
    SimState × Int × Bool :=
  if h : ch < NUM_CH then
    let warned := decide (mv < 0 ∨ ADC_REF_MV < mv)
    let mv2 := if mv < 0 ∨ ADC_REF_MV < mv then (if mv < 0 then 0 else ADC_REF_MV)
               else mv
    ({ emul := Function.update st.emul ⟨ch, h⟩ mv2,
       injected_mv := Function.update st.injected_mv ⟨ch, h⟩ mv2,
       injection_enabled := Function.update st.injection_enabled ⟨ch, h⟩ true },
     0, warned)
  else
    (st, -EINVAL, false)

/-- Modelled from the spec: the Zephyr `adc_emul` driver and `adc_read` are
external to this repository, so the emulator read-back inside `sample_all`
cannot be taken from src/.  The spec states that injection "sets the value
the backend will return for `channel` on the next `sample_all` call", so
sampling through the emulator is modelled value-faithfully: `sample_all`
yields each channel's stored emulator constant, and returns 0 as in the
source. -/
def sample_all_emulated (st : SimState) : Chans × Int := (st.emul, 0)

/-- `cmd_adcset` (targets/sim/cmd_inject_adc.c lines 16-47): usage error when
`argc != 3`; rejects `ch >= CONFIG_APP_NUM_CH` with `-EINVAL` before calling
the backend; otherwise forwards to `adc_backend_inject_mv`, propagating a
negative result and returning 0 on success. -/
def cmd_adcset (st : SimState) (argc : Nat) (ch : Nat) (mv : Int) :
    SimState × Int :=
  if argc ≠ 3 then (st, -EINVAL)
  else if NUM_CH ≤ ch then (st, -EINVAL)
  else
    let r := adc_backend_inject_mv st ch mv
    if r.2.1 < 0 then (r.1, r.2.1) else (r.1, 0)

end sim

namespace hw

/-- `ADC_REF_MV` (targets/hw/adc_backend.c): reference voltage in mV. -/
def ADC_REF_MV : Int := 3300

/-- `ADC_RESOLUTION` (targets/hw/adc_backend.c): 12-bit ADC resolution. -/
def ADC_RESOLUTION : Nat := 12

/-- `adc_backend_sample_all` (targets/hw/adc_backend.c lines 152-186, the
`ADC_CONFIGURED` branch).  The routing of each software channel to ADC1/ADC3
only selects which device `adc_read` targets; the per-channel outcome is the
environment parameter pair `rret` / `rbuf` exactly as in the simulator
variant.  A negative return code zeroes the output slot; otherwise the raw
value is converted with `raw * ADC_REF_MV / ((1 << ADC_RESOLUTION) - 1)`.
The function returns 0 unconditionally. -/
def adc_backend_sample_all (rret : Fin NUM_CH → Int) (rbuf : Fin NUM_CH → Int) :
    Chans × Int :=
  (fun i => if rret i < 0 then 0
            else Int.tdiv (rbuf i * ADC_REF_MV) ((2 : Int) ^ ADC_RESOLUTION - 1),
   0)

end hw

/-- The spec's conversion formula `mv = raw * V_ref / (2^resolution - 1)`,
written from the spec's words for refinement comparison with the two backend
implementations. -/
def mv_from_raw_spec (raw vref : Int) (res : Nat) : Int :=
  Int.tdiv (raw * vref) ((2 : Int) ^ res - 1)

/-- The spec's `clamp(mv, 0, V_ref)`, written from the spec's words for
comparison with the injection path's clamping. -/
def clamp_spec (x lo hi : Int) : Int := max lo (min hi x)

/-! ### Interleaving semantics of the mutex-protected register file

`regs_update` and `regs_read` (regs.c) both wrap their whole body in
`k_mutex_lock(&regs_mutex, K_FOREVER)` / `k_mutex_unlock`.  To verify the
snapshot-consistency guarantee we split the writer's critical section into
its individual memory writes (channel copy, `seq` increment, timestamp
store) and let arbitrarily many readers interleave; the only atomicity
assumed is that of single loads/stores and of the mutex operations
themselves. -/

/-- Program counter of the single writer thread inside `regs_update`
(regs.c lines 29-37). -/
inductive WriterPC where
  | idle : WriterPC
  | locked (v : Chans) (t : Int) : WriterPC
  | wroteMv (v : Chans) (t : Int) : WriterPC
  | wroteSeq (v : Chans) (t : Int) : WriterPC
  | wroteTime : WriterPC

/-- Whether the writer is inside its mutex-protected critical section. -/
def WriterPC.inCS : WriterPC → Prop
  | WriterPC.idle => False
  | _ => True

/-- Program counter of a reader thread inside `regs_read` (regs.c lines
42-46). -/
inductive ReaderPC where
  | idle : ReaderPC
  | locked : ReaderPC
  | copied (snap : adc_regs) : ReaderPC

/-- Which thread holds `regs_mutex`. -/
inductive Holder where
  | writer : Holder
  | reader (id : Nat) : Holder

/-- A configuration of the concurrent system: the shared register file, the
mutex, the writer's program counter, every reader's program counter, the
updates whose critical section has completed its last store (in commit
order), and the log of all snapshots copied out by readers. -/
structure Conf where
  regs : adc_regs
  lock : Option Holder
  wpc : WriterPC
  rpc : Nat → ReaderPC
  committed : UpdList
  snaps : List adc_regs

/-- Initial configuration: `regs_init` has completed before any thread runs
(the spec's lifecycle: no update/read races with init), the mutex is free and
every thread is outside its critical section. -/
def Conf.start : Conf :=
  { regs := regs_init, lock := none, wpc := WriterPC.idle,
    rpc := fun _ => ReaderPC.idle, committed := [], snaps := [] }

/-- The register-file state committed by a sequence of updates. -/
def epoch_state (us : UpdList) : adc_regs := regs_run regs_init us

/-- One interleaving step.  `k_mutex_lock(K_FOREVER)` can only complete when
the mutex is free; each memory access of regs.c is a separate step, and a
thread performs them only from the program point it actually reached. -/
inductive Step : Conf → Conf → Prop where
  | wLock {c : Conf} (v : Chans) (t : Int)
      (hl : c.lock = none) (hw : c.wpc = WriterPC.idle) :
      Step c { c with lock := some Holder.writer, wpc := WriterPC.locked v t }
  | wMv {c : Conf} (v : Chans) (t : Int) (hw : c.wpc = WriterPC.locked v t) :
      Step c { c with regs := { c.regs with mv := v },
                      wpc := WriterPC.wroteMv v t }
  | wSeq {c : Conf} (v : Chans) (t : Int) (hw : c.wpc = WriterPC.wroteMv v t) :
      Step c { c with regs := { c.regs with seq := (c.regs.seq + 1) % UINT32_MOD },
                      wpc := WriterPC.wroteSeq v t }
  | wTime {c : Conf} (v : Chans) (t : Int) (hw : c.wpc = WriterPC.wroteSeq v t) :
      Step c { c with regs := { c.regs with last_sample_uptime_ms := t },
                      wpc := WriterPC.wroteTime,
                      committed := c.committed ++ [(v, t)] }
  | wUnlock {c : Conf} (hw : c.wpc = WriterPC.wroteTime) :
      Step c { c with lock := none, wpc := WriterPC.idle }
  | rLock {c : Conf} (id : Nat)
      (hl : c.lock = none) (hr : c.rpc id = ReaderPC.idle) :
      Step c { c with lock := some (Holder.reader id),
                      rpc := Function.update c.rpc id ReaderPC.locked }
  | rCopy {c : Conf} (id : Nat) (hr : c.rpc id = ReaderPC.locked) :
      Step c { c with rpc := Function.update c.rpc id (ReaderPC.copied c.regs),
                      snaps := c.snaps ++ [c.regs] }
  | rUnlock {c : Conf} (id : Nat) (s : adc_regs)
      (hr : c.rpc id = ReaderPC.copied s) :
      Step c { c with lock := none, rpc := Function.update c.rpc id ReaderPC.idle }

/-- Configurations reachable from the initial one. -/
def Reach (c : Conf) : Prop := Relation.ReflTransGen Step Conf.start c

/-- What the register file contains at each writer program point: outside the
critical section it is exactly the state committed so far; inside, exactly
the fields already written differ. -/
def RegsShape : WriterPC → adc_regs → UpdList → Prop
  | WriterPC.idle, r, us =>
      r.mv = (epoch_state us).mv ∧ r.seq = (epoch_state us).seq ∧
      r.last_sample_uptime_ms = (epoch_state us).last_sample_uptime_ms
  | WriterPC.locked _ _, r, us =>
      r.mv = (epoch_state us).mv ∧ r.seq = (epoch_state us).seq ∧
      r.last_sample_uptime_ms = (epoch_state us).last_sample_uptime_ms
  | WriterPC.wroteMv v _, r, us =>
      r.mv = v ∧ r.seq = (epoch_state us).seq ∧
      r.last_sample_uptime_ms = (epoch_state us).last_sample_uptime_ms
  | WriterPC.wroteSeq v _, r, us =>
      r.mv = v ∧ r.seq = ((epoch_state us).seq + 1) % UINT32_MOD ∧
      r.last_sample_uptime_ms = (epoch_state us).last_sample_uptime_ms
  | WriterPC.wroteTime, r, us =>
      r.mv = (epoch_state us).mv ∧ r.seq = (epoch_state us).seq ∧
      r.last_sample_uptime_ms = (epoch_state us).last_sample_uptime_ms

/-- System invariant: mutual exclusion ties each in-progress critical section
to the mutex holder, the register file has the shape dictated by the writer's
program point, and every logged snapshot is a committed epoch state. -/
structure Inv (c : Conf) : Prop where
  hwl : c.wpc.inCS → c.lock = some Holder.writer
  hrl : ∀ id, c.rpc id ≠ ReaderPC.idle → c.lock = some (Holder.reader id)
  hshape : RegsShape c.wpc c.regs c.committed
  hsnaps : ∀ s ∈ c.snaps, ∃ k, k ≤ c.committed.length ∧
    s = epoch_state (c.committed.take k)

/-- The snapshot produced by one full update of 1000 mV at uptime 5. -/
def snap1 : adc_regs :=
  { mv := fun _ => 1000, seq := 1, last_sample_uptime_ms := 5 }

/-- Trace configurations for a concrete execution: one complete update
followed by one complete read. -/
def conf1 : Conf :=
  { Conf.start with lock := some Holder.writer,
                    wpc := WriterPC.locked (fun _ => 1000) 5 }

def conf2 : Conf :=
  { conf1 with regs := { conf1.regs with mv := fun _ => 1000 },
               wpc := WriterPC.wroteMv (fun _ => 1000) 5 }

def conf3 : Conf :=
  { conf2 with regs := { conf2.regs with seq := (conf2.regs.seq + 1) % UINT32_MOD },
               wpc := WriterPC.wroteSeq (fun _ => 1000) 5 }

def conf4 : Conf :=
  { conf3 with regs := { conf3.regs with last_sample_uptime_ms := 5 },
               wpc := WriterPC.wroteTime,
               committed := conf3.committed ++ [(fun _ => 1000, 5)] }

def conf5 : Conf := { conf4 with lock := none, wpc := WriterPC.idle }

def conf6 : Conf :=
  { conf5 with lock := some (Holder.reader 0),
               rpc := Function.update conf5.rpc 0 ReaderPC.locked }

def conf7 : Conf :=
  { conf6 with rpc := Function.update conf6.rpc 0 (ReaderPC.copied conf6.regs),
               snaps := conf6.snaps ++ [conf6.regs] }

instance : DecidableEq adc_regs := fun a b =>
  decidable_of_iff
    (a.mv = b.mv ∧ a.seq = b.seq ∧
      a.last_sample_uptime_ms = b.last_sample_uptime_ms)
    (by cases a; cases b; simp)

/-! ### Helper lemmas about `regs_run` -/

theorem regs_run_cons (u : Chans × Int) (us : UpdList) (r : adc_regs) :
    regs_run r (u :: us) = regs_run (regs_update r u.1 u.2) us := rfl

theorem seq_lt_of_update (r : adc_regs) (v : Chans) (t : Int) :
    (regs_update r v t).seq < UINT32_MOD :=
  Nat.mod_lt _ (by norm_num [UINT32_MOD])

theorem regs_run_seq : ∀ (us : UpdList) (r : adc_regs), r.seq < UINT32_MOD →
    (regs_run r us).seq = (r.seq + us.length) % UINT32_MOD
  | [], r, h => by simp [regs_run, Nat.mod_eq_of_lt h]
  | u :: us, r, h => by
    rw [regs_run_cons, regs_run_seq us _ (seq_lt_of_update r u.1 u.2)]
    show ((r.seq + 1) % UINT32_MOD + us.length) % UINT32_MOD
        = (r.seq + (u :: us).length) % UINT32_MOD
    rw [Nat.mod_add_mod, List.length_cons]
    congr 1
    omega

@[simp] theorem regs_update_mv (r : adc_regs) (v : Chans) (t : Int) :
    (regs_update r v t).mv = v := rfl

@[simp] theorem regs_update_seq (r : adc_regs) (v : Chans) (t : Int) :
    (regs_update r v t).seq = (r.seq + 1) % UINT32_MOD := rfl

@[simp] theorem regs_update_time (r : adc_regs) (v : Chans) (t : Int) :
    (regs_update r v t).last_sample_uptime_ms = t := rfl

theorem regs_run_snoc (r : adc_regs) (us : UpdList) (u : Chans × Int) :
    regs_run r (us ++ [u]) = regs_update (regs_run r us) u.1 u.2 := by
  simp [regs_run, List.foldl_append]

theorem epoch_state_snoc (us : UpdList) (u : Chans × Int) :
    epoch_state (us ++ [u]) = regs_update (epoch_state us) u.1 u.2 :=
  regs_run_snoc regs_init us u

theorem regs_run_seq_zero (us : UpdList) :
    (regs_run regs_init us).seq = us.length % UINT32_MOD := by
  have h := regs_run_seq us regs_init (by norm_num [regs_init, UINT32_MOD])
  simpa [regs_init] using h

theorem epoch_state_seq (us : UpdList) :
    (epoch_state us).seq = us.length % UINT32_MOD :=
  regs_run_seq_zero us

theorem take_succ_get (l : UpdList) (j : Nat) (hj : j < l.length) :
    l.take (j + 1) = l.take j ++ [l.get ⟨j, hj⟩] := by
  rw [List.take_succ]
  simp [List.getElem?_eq_getElem hj, List.get_eq_getElem]

theorem regs_eq_of_fields (a b : adc_regs) (h1 : a.mv = b.mv)
    (h2 : a.seq = b.seq)
    (h3 : a.last_sample_uptime_ms = b.last_sample_uptime_ms) : a = b := by
  cases a
  cases b
  simp_all

theorem WriterPC.not_inCS (w : WriterPC) (h : ¬ w.inCS) : w = WriterPC.idle := by
  cases w
  · rfl
  all_goals exact absurd trivial h

/-! ### Invariant of the interleaving semantics -/

theorem Inv_start : Inv Conf.start := by
  refine ⟨?_, ?_, ?_, ?_⟩
  · intro h
    exact h.elim
  · intro id hid
    exact absurd rfl hid
  · exact ⟨rfl, rfl, rfl⟩
  · intro s hsm
    exact absurd hsm (List.not_mem_nil s)

theorem Inv_step {c c' : Conf} (hs : Step c c') (hi : Inv c) : Inv c' := by
  cases hs with
  | wLock v t hl hw =>
    refine ⟨fun _ => rfl, ?_, ?_, hi.hsnaps⟩
    · intro id hid
      have h2 := hi.hrl id hid
      rw [hl] at h2
      exact absurd h2 (by simp)
    · have h0 := hi.hshape
      rw [hw] at h0
      simp only [RegsShape] at h0
      exact h0
  | wMv v t hw =>
    have hlock : c.lock = some Holder.writer := hi.hwl (by rw [hw]; exact trivial)
    refine ⟨fun _ => hlock, ?_, ?_, hi.hsnaps⟩
    · intro id hid
      have h2 := hi.hrl id hid
      rw [hlock] at h2
      exact absurd h2 (by simp)
    · have h0 := hi.hshape
      rw [hw] at h0
      simp only [RegsShape] at h0
      exact ⟨rfl, h0.2.1, h0.2.2⟩
  | wSeq v t hw =>
    have hlock : c.lock = some Holder.writer := hi.hwl (by rw [hw]; exact trivial)
    refine ⟨fun _ => hlock, ?_, ?_, hi.hsnaps⟩
    · intro id hid
      have h2 := hi.hrl id hid
      rw [hlock] at h2
      exact absurd h2 (by simp)
    · have h0 := hi.hshape
      rw [hw] at h0
      simp only [RegsShape] at h0
      refine ⟨h0.1, ?_, h0.2.2⟩
      show (c.regs.seq + 1) % UINT32_MOD = ((epoch_state c.committed).seq + 1) % UINT32_MOD
      rw [h0.2.1]
  | wTime v t hw =>
    have hlock : c.lock = some Holder.writer := hi.hwl (by rw [hw]; exact trivial)
    refine ⟨fun _ => hlock, ?_, ?_, ?_⟩
    · intro id hid
      have h2 := hi.hrl id hid
      rw [hlock] at h2
      exact absurd h2 (by simp)
    · have h0 := hi.hshape
      rw [hw] at h0
      simp only [RegsShape] at h0
      simp only [RegsShape, epoch_state_snoc]
      exact ⟨h0.1, h0.2.1, rfl⟩
    · intro s hsm
      obtain ⟨k, hk, hks⟩ := hi.hsnaps s hsm
      refine ⟨k, ?_, ?_⟩
      · simp only [List.length_append, List.length_cons, List.length_nil]
        omega
      · rw [List.take_append_of_le_length hk]
        exact hks
  | wUnlock hw =>
    have hlock : c.lock = some Holder.writer := hi.hwl (by rw [hw]; exact trivial)
    refine ⟨fun h => h.elim, ?_, ?_, hi.hsnaps⟩
    · intro id hid
      have h2 := hi.hrl id hid
      rw [hlock] at h2
      exact absurd h2 (by simp)
    · have h0 := hi.hshape
      rw [hw] at h0
      simp only [RegsShape] at h0
      exact h0
  | rLock id hl hr =>
    refine ⟨?_, ?_, hi.hshape, hi.hsnaps⟩
    · intro h
      have h2 := hi.hwl h
      rw [hl] at h2
      exact absurd h2 (by simp)
    · intro id' hid'
      by_cases he : id' = id
      · subst he
        rfl
      · have hid2 : Function.update c.rpc id ReaderPC.locked id' ≠ ReaderPC.idle :=
          hid'
        have h3 : c.rpc id' ≠ ReaderPC.idle := by
          rwa [Function.update_noteq he] at hid2
        have h2 := hi.hrl id' h3
        rw [hl] at h2
        exact absurd h2 (by simp)
  | rCopy id hr =>
    refine ⟨hi.hwl, ?_, hi.hshape, ?_⟩
    · intro id' hid'
      by_cases he : id' = id
      · subst he
        exact hi.hrl id' (by rw [hr]; simp)
      · have hid2 : Function.update c.rpc id (ReaderPC.copied c.regs) id'
            ≠ ReaderPC.idle := hid'
        have h3 : c.rpc id' ≠ ReaderPC.idle := by
          rwa [Function.update_noteq he] at hid2
        exact hi.hrl id' h3
    · intro s hsm
      rcases List.mem_append.mp hsm with hold | hnew
      · exact hi.hsnaps s hold
      · have hs' : s = c.regs := by simpa using hnew
        have hlock2 : c.lock = some (Holder.reader id) :=
          hi.hrl id (by rw [hr]; simp)
        have hnin : ¬ c.wpc.inCS := by
          intro hin
          have h4 := hi.hwl hin
          rw [hlock2] at h4
          exact absurd h4 (by simp)
        have hidle := WriterPC.not_inCS c.wpc hnin
        have h0 := hi.hshape
        rw [hidle] at h0
        simp only [RegsShape] at h0
        refine ⟨c.committed.length, le_refl _, ?_⟩
        rw [List.take_length, hs']
        exact regs_eq_of_fields _ _ h0.1 h0.2.1 h0.2.2
  | rUnlock id s hr =>
    refine ⟨?_, ?_, hi.hshape, hi.hsnaps⟩
    · intro h
      have h4 := hi.hwl h
      have h5 := hi.hrl id (by rw [hr]; simp)
      rw [h4] at h5
      exact absurd h5 (by simp)
    · intro id' hid'
      by_cases he : id' = id
      · subst he
        have hid2 : Function.update c.rpc id' ReaderPC.idle id' ≠ ReaderPC.idle :=
          hid'
        rw [Function.update_same] at hid2
        exact absurd rfl hid2
      · have hid2 : Function.update c.rpc id ReaderPC.idle id' ≠ ReaderPC.idle :=
          hid'
        have h3 : c.rpc id' ≠ ReaderPC.idle := by
          rwa [Function.update_noteq he] at hid2
        have h5 := hi.hrl id' h3
        have h6 := hi.hrl id (by rw [hr]; simp)
        rw [h5] at h6
        have h7 : id' = id := by simpa using h6
        exact absurd h7 he

theorem Inv_reach (c : Conf) (hr : Reach c) : Inv c := by
  induction hr with
  | refl => exact Inv_start
  | tail h1 h2 ih => exact Inv_step h2 ih

/-! ### Claim theorems -/

/-- C1: for every millivolt array `V` and every prior register-file state,
`regs_update V` followed by `regs_read` yields a snapshot whose channels
equal `V`, whose sequence equals the previous sequence plus 1 modulo `2^32`,
and whose `last_sample_uptime_ms` is at least the previous one.  The
hypothesis `hclock` encodes that `k_uptime_get()` is monotonic: the uptime
read during the update is at least the one stored by any earlier update (or
the zero stored by `regs_init`). -/
theorem regs_update_then_read (r : adc_regs) (V : Chans) (now : Int)
    (hclock : r.last_sample_uptime_ms ≤ now) :
    (regs_read (regs_update r V now)).mv = V ∧
    (regs_read (regs_update r V now)).seq = (r.seq + 1) % UINT32_MOD ∧
    r.last_sample_uptime_ms ≤ (regs_read (regs_update r V now)).last_sample_uptime_ms :=
  ⟨rfl, rfl, hclock⟩

/-- Witness for C1 at a concrete state and input. -/
theorem regs_update_then_read_instance :
    regs_init.last_sample_uptime_ms ≤ 7 ∧
    ((regs_read (regs_update regs_init (fun _ => 1000) 7)).mv = (fun _ => 1000) ∧
     (regs_read (regs_update regs_init (fun _ => 1000) 7)).seq
        = (regs_init.seq + 1) % UINT32_MOD ∧
     regs_init.last_sample_uptime_ms
        ≤ (regs_read (regs_update regs_init (fun _ => 1000) 7)).last_sample_uptime_ms) :=
  ⟨by decide, regs_update_then_read regs_init (fun _ => 1000) 7 (by decide)⟩

/-- C6: after `regs_init` and before any update, `regs_read` returns a
snapshot with every channel 0, sequence 0 and timestamp 0. -/
theorem regs_init_read_zero :
    (∀ i : Fin NUM_CH, (regs_read regs_init).mv i = 0) ∧
    (regs_read regs_init).seq = 0 ∧
    (regs_read regs_init).last_sample_uptime_ms = 0 :=
  ⟨fun _ => rfl, rfl, rfl⟩

/-- C7: after `regs_init` followed by any finite list of sequential
`regs_update` calls, the sequence counter equals the number of updates modulo
`2^32` (the `uint32_t` width): the counter wraps rather than saturating. -/
theorem regs_seq_after_K_updates (us : UpdList) :
    (regs_run regs_init us).seq = us.length % UINT32_MOD := by
  have h := regs_run_seq us regs_init (by norm_num [regs_init, UINT32_MOD])
  simpa [regs_init] using h

/-- C3: in a sampling-loop cycle whose backend call returned a nonzero code,
`regs_update` is not called: the register file passed to the next cycle is
unchanged, the failure is logged (`LOG_ERR`, the `true` flag), and the loop
continues with the remaining cycles from the same state. -/
theorem sample_cycle_failure_skips_update (ret : Int) (samples : Chans)
    (now : Int) (r : adc_regs) (rest : List (Int × Chans × Int))
    (hfail : ret ≠ 0) :
    (sample_thread_cycle ret samples now r).1 = r ∧
    (sample_thread_cycle ret samples now r).2 = true ∧
    run_cycles ((ret, samples, now) :: rest) r = run_cycles rest r := by
  refine ⟨?_, ?_, ?_⟩ <;> simp [sample_thread_cycle, run_cycles, hfail]

/-- Witness for C3 at a concrete failing cycle. -/
theorem sample_cycle_failure_skips_update_instance :
    (-5 : Int) ≠ 0 ∧
    ((sample_thread_cycle (-5) (fun _ => 0) 0 regs_init).1 = regs_init ∧
     (sample_thread_cycle (-5) (fun _ => 0) 0 regs_init).2 = true ∧
     run_cycles [((-5 : Int), (fun _ => 0 : Chans), (0 : Int))] regs_init
        = run_cycles [] regs_init) :=
  ⟨by decide,
   sample_cycle_failure_skips_update (-5) (fun _ => 0) 0 regs_init [] (by decide)⟩

/-- C4: for every backend environment (every combination of per-channel
`adc_read` outcomes) and every output buffer, both backend implementations of
`adc_backend_sample_all` return 0; a channel whose read fails only gets 0
written to its output slot and never changes the return code.  Consequently
the sampling loop's failure branch is never taken when the cycle uses the
backend's return code: the cycle always commits via `regs_update`. -/
theorem sample_all_never_fails (rret rbuf : Fin NUM_CH → Int) (i : Fin NUM_CH)
    (samples : Chans) (now : Int) (r : adc_regs) :
    (sim.adc_backend_sample_all rret rbuf).2 = 0 ∧
    (hw.adc_backend_sample_all rret rbuf).2 = 0 ∧
    (rret i < 0 → (sim.adc_backend_sample_all rret rbuf).1 i = 0) ∧
    (rret i < 0 → (hw.adc_backend_sample_all rret rbuf).1 i = 0) ∧
    sample_thread_cycle (sim.adc_backend_sample_all rret rbuf).2 samples now r
        = (regs_update r samples now, false) ∧
    sample_thread_cycle (hw.adc_backend_sample_all rret rbuf).2 samples now r
        = (regs_update r samples now, false) := by
  refine ⟨rfl, rfl, ?_, ?_, ?_, ?_⟩ <;>
    intros <;>
    simp_all [sim.adc_backend_sample_all, hw.adc_backend_sample_all,
      sample_thread_cycle]

/-- Witness for C4 in a mixed environment: channel 0's read fails, every
other channel's read succeeds. -/
theorem sample_all_never_fails_instance :
    (sim.adc_backend_sample_all (fun j => if j = 0 then -5 else 0)
        (fun _ => 2048)).2 = 0 ∧
    (hw.adc_backend_sample_all (fun j => if j = 0 then -5 else 0)
        (fun _ => 2048)).2 = 0 ∧
    ((fun j : Fin NUM_CH => if j = 0 then (-5 : Int) else 0) 0 < 0 →
     (sim.adc_backend_sample_all (fun j => if j = 0 then -5 else 0)
        (fun _ => 2048)).1 0 = 0) ∧
    ((fun j : Fin NUM_CH => if j = 0 then (-5 : Int) else 0) 0 < 0 →
     (hw.adc_backend_sample_all (fun j => if j = 0 then -5 else 0)
        (fun _ => 2048)).1 0 = 0) ∧
    sample_thread_cycle
      (sim.adc_backend_sample_all (fun j => if j = 0 then -5 else 0)
        (fun _ => 2048)).2
      (fun _ => 9) 3 regs_init = (regs_update regs_init (fun _ => 9) 3, false) ∧
    sample_thread_cycle
      (hw.adc_backend_sample_all (fun j => if j = 0 then -5 else 0)
        (fun _ => 2048)).2
      (fun _ => 9) 3 regs_init = (regs_update regs_init (fun _ => 9) 3, false) :=
  sample_all_never_fails (fun j => if j = 0 then -5 else 0) (fun _ => 2048) 0
    (fun _ => 9) 3 regs_init

/-- C5: if `adc_backend_init` fails at startup, `main` returns that code, the
sampling thread is never created, and — since the sampling thread is the only
caller of `regs_update` — the register file stays at its post-`regs_init`
state (all channels zero, sequence 0, timestamp 0) however many would-be
cycles elapse. -/
theorem backend_init_failure_no_sampling (iret : Int) (hfail : iret ≠ 0)
    (cycles : List (Int × Chans × Int)) :
    (main_startup iret).thread_started = false ∧
    (main_startup iret).ret = iret ∧
    run_sampling (main_startup iret).thread_started cycles (main_startup iret).regs
        = regs_init ∧
    (∀ i : Fin NUM_CH,
      (run_sampling (main_startup iret).thread_started cycles
        (main_startup iret).regs).mv i = 0) ∧
    (run_sampling (main_startup iret).thread_started cycles
        (main_startup iret).regs).seq = 0 ∧
    (run_sampling (main_startup iret).thread_started cycles
        (main_startup iret).regs).last_sample_uptime_ms = 0 := by
  refine ⟨?_, ?_, ?_, ?_, ?_, ?_⟩ <;>
    simp [main_startup, run_sampling, regs_init, hfail]

/-- Witness for C5 at a concrete failing init code, with one would-be
successful cycle pending. -/
theorem backend_init_failure_no_sampling_instance :
    (-19 : Int) ≠ 0 ∧
    ((main_startup (-19)).thread_started = false ∧
     (main_startup (-19)).ret = -19 ∧
     run_sampling (main_startup (-19)).thread_started
        [((0 : Int), (fun _ => 5 : Chans), (9 : Int))] (main_startup (-19)).regs
        = regs_init ∧
     (∀ i : Fin NUM_CH,
       (run_sampling (main_startup (-19)).thread_started
         [((0 : Int), (fun _ => 5 : Chans), (9 : Int))]
         (main_startup (-19)).regs).mv i = 0) ∧
     (run_sampling (main_startup (-19)).thread_started
        [((0 : Int), (fun _ => 5 : Chans), (9 : Int))]
        (main_startup (-19)).regs).seq = 0 ∧
     (run_sampling (main_startup (-19)).thread_started
        [((0 : Int), (fun _ => 5 : Chans), (9 : Int))]
        (main_startup (-19)).regs).last_sample_uptime_ms = 0) :=
  ⟨by decide,
   backend_init_failure_no_sampling (-19) (by decide)
     [((0 : Int), (fun _ => 5 : Chans), (9 : Int))]⟩

/-- C8: on every channel whose raw read succeeded (`adc_read` returned a
non-negative code), both backend implementations convert the raw value with
exactly the spec's formula `mv = raw * V_ref / (2^resolution - 1)`, and both
use `V_ref = 3300` and `resolution = 12`. -/
theorem sample_conversion_formula (rret rbuf : Fin NUM_CH → Int)
    (i : Fin NUM_CH) (hok : 0 ≤ rret i) :
    (sim.adc_backend_sample_all rret rbuf).1 i
        = mv_from_raw_spec (rbuf i) sim.ADC_REF_MV sim.ADC_RESOLUTION ∧
    (hw.adc_backend_sample_all rret rbuf).1 i
        = mv_from_raw_spec (rbuf i) hw.ADC_REF_MV hw.ADC_RESOLUTION ∧
    sim.ADC_REF_MV = 3300 ∧ sim.ADC_RESOLUTION = 12 ∧
    hw.ADC_REF_MV = 3300 ∧ hw.ADC_RESOLUTION = 12 := by
  have h : ¬ rret i < 0 := not_lt.mpr hok
  exact ⟨by simp [sim.adc_backend_sample_all, mv_from_raw_spec, h],
         by simp [hw.adc_backend_sample_all, mv_from_raw_spec, h],
         rfl, rfl, rfl, rfl⟩

/-- Witness for C8 at a concrete raw reading. -/
theorem sample_conversion_formula_instance :
    (0 : Int) ≤ (fun _ : Fin NUM_CH => (0 : Int)) 2 ∧
    ((sim.adc_backend_sample_all (fun _ => 0) (fun _ => 2048)).1 2
        = mv_from_raw_spec ((fun _ : Fin NUM_CH => (2048 : Int)) 2)
            sim.ADC_REF_MV sim.ADC_RESOLUTION ∧
     (hw.adc_backend_sample_all (fun _ => 0) (fun _ => 2048)).1 2
        = mv_from_raw_spec ((fun _ : Fin NUM_CH => (2048 : Int)) 2)
            hw.ADC_REF_MV hw.ADC_RESOLUTION ∧
     sim.ADC_REF_MV = 3300 ∧ sim.ADC_RESOLUTION = 12 ∧
     hw.ADC_REF_MV = 3300 ∧ hw.ADC_RESOLUTION = 12) :=
  ⟨by decide,
   sample_conversion_formula (fun _ => 0) (fun _ => 2048) 2 (by decide)⟩

/-- C9: on the simulated backend, a successful injection on a valid channel
returns 0, stores `clamp(mv, 0, ADC_REF_MV)` so that the next `sample_all`
yields that clamped value at the channel (emulator read-back modelled from
the spec, see `sim.sample_all_emulated`), and the warning is recorded exactly
when `mv` was outside `[0, ADC_REF_MV]`. -/
theorem inject_then_sample_clamps (st : sim.SimState) (ch : Nat) (mv : Int)
    (h : ch < NUM_CH) :
    (sim.adc_backend_inject_mv st ch mv).2.1 = 0 ∧
    (sim.sample_all_emulated (sim.adc_backend_inject_mv st ch mv).1).1 ⟨ch, h⟩
        = clamp_spec mv 0 sim.ADC_REF_MV ∧
    (sim.sample_all_emulated (sim.adc_backend_inject_mv st ch mv).1).2 = 0 ∧
    ((sim.adc_backend_inject_mv st ch mv).2.2 = true
        ↔ (mv < 0 ∨ sim.ADC_REF_MV < mv)) := by
  have hemul : (sim.adc_backend_inject_mv st ch mv).1.emul ⟨ch, h⟩
      = (if mv < 0 ∨ sim.ADC_REF_MV < mv then (if mv < 0 then 0 else sim.ADC_REF_MV)
         else mv) := by
    simp [sim.adc_backend_inject_mv, dif_pos h, Function.update_apply]
  refine ⟨?_, ?_, rfl, ?_⟩
  · simp [sim.adc_backend_inject_mv, dif_pos h]
  · show (sim.adc_backend_inject_mv st ch mv).1.emul ⟨ch, h⟩ = _
    rw [hemul]
    simp only [clamp_spec, sim.ADC_REF_MV]
    split
    · split <;> omega
    · omega
  · simp [sim.adc_backend_inject_mv, dif_pos h]

/-- Witness for C9: inject 5000 mV on channel 2 (spec scenario 4). -/
theorem inject_then_sample_clamps_instance :
    (2 : Nat) < NUM_CH ∧
    ((sim.adc_backend_inject_mv ⟨fun _ => 1650, fun _ => 1650, fun _ => false⟩
        2 5000).2.1 = 0 ∧
     (sim.sample_all_emulated
        (sim.adc_backend_inject_mv ⟨fun _ => 1650, fun _ => 1650, fun _ => false⟩
          2 5000).1).1 ⟨2, by decide⟩
        = clamp_spec 5000 0 sim.ADC_REF_MV ∧
     (sim.sample_all_emulated
        (sim.adc_backend_inject_mv ⟨fun _ => 1650, fun _ => 1650, fun _ => false⟩
          2 5000).1).2 = 0 ∧
     ((sim.adc_backend_inject_mv ⟨fun _ => 1650, fun _ => 1650, fun _ => false⟩
        2 5000).2.2 = true ↔ ((5000 : Int) < 0 ∨ sim.ADC_REF_MV < 5000))) :=
  ⟨by decide,
   inject_then_sample_clamps ⟨fun _ => 1650, fun _ => 1650, fun _ => false⟩
     2 5000 (by decide)⟩

/-- C10: an injection request for a channel index at or beyond `NUM_CH` is
rejected synchronously with `-EINVAL` and no state change, both at the
backend entry point and at the shell command (which re-checks the bound
before calling the backend); the register file is not touched anywhere on
this path. -/
theorem inject_rejects_bad_channel (st : sim.SimState) (ch : Nat) (mv : Int)
    (h : NUM_CH ≤ ch) :
    sim.adc_backend_inject_mv st ch mv = (st, -EINVAL, false) ∧
    -EINVAL < 0 ∧
    sim.cmd_adcset st 3 ch mv = (st, -EINVAL) := by
  have h2 : ¬ ch < NUM_CH := not_lt.mpr h
  refine ⟨?_, by norm_num [EINVAL], ?_⟩
  · simp [sim.adc_backend_inject_mv, h2]
  · simp [sim.cmd_adcset, h]

/-- C2: in the interleaving semantics of the mutex-protected register file
(one writer, arbitrarily many readers, the writer's critical section split
into its individual stores), every snapshot ever returned by a completed
`regs_read` copy is the complete committed state of exactly one update
epoch `k`: its channels and timestamp are those of the `k`-th committed
update (for `k = 0`, the post-init state) and its sequence number is
`k mod 2^32` — never a mixture of two different updates' fields. -/
theorem reader_snapshot_single_epoch (c : Conf) (hr : Reach c)
    (s : adc_regs) (hs : s ∈ c.snaps) :
    ∃ k, k ≤ c.committed.length ∧
      s = epoch_state (c.committed.take k) ∧
      s.seq = k % UINT32_MOD ∧
      (∀ hpos : 0 < k, ∃ hk : k - 1 < c.committed.length,
        s.mv = (c.committed.get ⟨k - 1, hk⟩).1 ∧
        s.last_sample_uptime_ms = (c.committed.get ⟨k - 1, hk⟩).2) := by
  obtain ⟨k, hk, hks⟩ := (Inv_reach c hr).hsnaps s hs
  have hlen : (c.committed.take k).length = k := by
    simp [List.length_take, Nat.min_eq_left hk]
  refine ⟨k, hk, hks, ?_, ?_⟩
  · rw [hks, epoch_state_seq, hlen]
  · intro hpos
    obtain ⟨j, rfl⟩ : ∃ j, k = j + 1 :=
      ⟨k - 1, (Nat.succ_pred_eq_of_pos hpos).symm⟩
    have hj : j < c.committed.length := by omega
    have hE : epoch_state (c.committed.take (j + 1))
        = regs_update (epoch_state (c.committed.take j))
            (c.committed.get ⟨j, hj⟩).1 (c.committed.get ⟨j, hj⟩).2 := by
      rw [take_succ_get c.committed j hj]
      exact epoch_state_snoc _ _
    refine ⟨by omega, ?_, ?_⟩
    · rw [hks, hE]
      rfl
    · rw [hks, hE]
      rfl

/-- The concrete trace `Conf.start → … → conf7`: one full `regs_update`
(1000 mV on every channel, uptime 5) followed by one full `regs_read` by
reader 0. -/
theorem reach_conf7 : Reach conf7 :=
  Relation.ReflTransGen.tail
    (Relation.ReflTransGen.tail
      (Relation.ReflTransGen.tail
        (Relation.ReflTransGen.tail
          (Relation.ReflTransGen.tail
            (Relation.ReflTransGen.tail
              (Relation.ReflTransGen.tail Relation.ReflTransGen.refl
                (Step.wLock (fun _ => 1000) 5 rfl rfl))
              (Step.wMv (fun _ => 1000) 5 rfl))
            (Step.wSeq (fun _ => 1000) 5 rfl))
          (Step.wTime (fun _ => 1000) 5 rfl))
        (Step.wUnlock rfl))
      (Step.rLock 0 rfl rfl))
    (Step.rCopy 0 rfl)

/-- Witness for C2 on the concrete trace: the logged snapshot is the complete
state of epoch 1. -/
theorem reader_snapshot_single_epoch_instance :
    Reach conf7 ∧ snap1 ∈ conf7.snaps ∧
    (∃ k, k ≤ conf7.committed.length ∧
      snap1 = epoch_state (conf7.committed.take k) ∧
      snap1.seq = k % UINT32_MOD ∧
      (∀ hpos : 0 < k, ∃ hk : k - 1 < conf7.committed.length,
        snap1.mv = (conf7.committed.get ⟨k - 1, hk⟩).1 ∧
        snap1.last_sample_uptime_ms = (conf7.committed.get ⟨k - 1, hk⟩).2)) :=
  ⟨reach_conf7, by decide,
   reader_snapshot_single_epoch conf7 reach_conf7 snap1 (by decide)⟩

/-- Witness for C10 at channel 7 with `NUM_CH = 4`. -/
theorem inject_rejects_bad_channel_instance :
    NUM_CH ≤ 7 ∧
    (sim.adc_backend_inject_mv ⟨fun _ => 0, fun _ => 0, fun _ => false⟩ 7 1000
        = (⟨fun _ => 0, fun _ => 0, fun _ => false⟩, -EINVAL, false) ∧
     -EINVAL < 0 ∧
     sim.cmd_adcset ⟨fun _ => 0, fun _ => 0, fun _ => false⟩ 3 7 1000
        = (⟨fun _ => 0, fun _ => 0, fun _ => false⟩, -EINVAL)) :=
  ⟨by decide,
   inject_rejects_bad_channel ⟨fun _ => 0, fun _ => 0, fun _ => false⟩ 7 1000
     (by decide)⟩

end AdcSampler
